import Mathlib

/-!
Verification of the aiogtrans request-encoding / response-framing core
(`aiogtrans/aiohttpclient.py`, class `AiohttpTranslator`).

The development shallowly embeds the pure algorithmic content of the module:

* the JSON values Python's `json` module produces/consumes (`Json`),
  a compact serializer matching `json.dumps(..., separators=(",", ":"))`,
  and a parser matching `json.loads`;
* Python sequence subscripting / `len` / iteration / `str.join` semantics
  as partial operations (`Except`);
* the response framer of `AiohttpTranslator.translate` (the `token_found` /
  `square_bracket_counts` loop);
* the inline language resolver, the RPC request builder, and the full
  `translate` pipeline with the HTTP transport abstracted as an oracle
  function (the model also counts how often the transport is invoked).

The lookup tables `LANGUAGES` / `SPECIAL_CASES` / `LANGCODES`, the constant
`DEFAULT_RAISE_EXCEPTION` and the URL template `urls.TRANSLATE_RPC` live in
modules that are not part of the sources under verification; they are
modelled from the specification (each such definition is marked).
-/

/-- A Python value of the shapes `json.loads` can return: `None`, `bool`,
numbers (kept as their source lexeme, no claim touches numeric semantics),
`str`, `list`, `dict`. -/
inductive Json where
  | null : Json
  | bool (b : Bool) : Json
  | num (raw : String) : Json
  | str (s : String) : Json
  | arr (xs : List Json) : Json
  | obj (kvs : List (String × Json)) : Json

/-- Python subscripting `x[i]` for a non-negative literal index `i`:
list indexing (IndexError when out of range), string indexing (yields a
one-character string), everything else raises (TypeError / KeyError --
JSON object keys are strings, so an integer key misses). -/
def pySubscript : Json → Nat → Except Unit Json
  | .arr xs, i => if h : i < xs.length then .ok (xs.get ⟨i, h⟩) else .error ()
  | .str s, i => if h : i < s.data.length then .ok (.str (String.singleton (s.data.get ⟨i, h⟩))) else .error ()
  | _, _ => .error ()

/-- Chained subscripting `x[i][j]...`. -/
def pyPath (j : Json) (is : List Nat) : Except Unit Json :=
  is.foldlM pySubscript j

/-- Python `len(x)`: length for sequences and mappings, TypeError otherwise. -/
def pyLen : Json → Except Unit Nat
  | .arr xs => .ok xs.length
  | .str s => .ok s.data.length
  | .obj kvs => .ok kvs.length
  | _ => .error ()

/-- Python iteration (as forced by `list(map(...))`): a list yields its
elements, a string its one-character substrings, a dict its keys;
anything else raises TypeError. -/
def pyIter : Json → Except Unit (List Json)
  | .arr xs => .ok xs
  | .str s => .ok (s.data.map (fun ch => .str (String.singleton ch)))
  | .obj kvs => .ok (kvs.map (fun kv => .str kv.1))
  | _ => .error ()

/-- Whether a numeric lexeme denotes zero (all mantissa digits are `0`);
`NaN`/`Infinity` are non-zero. -/
def jsonNumIsZero (raw : String) : Bool :=
  if raw.data.any (fun ch => ch = 'N' || ch = 'I') then false
  else ((raw.data.takeWhile (fun ch => ch ≠ 'e' && ch ≠ 'E')).filter Char.isDigit).all (· = '0')

/-- Python truthiness of a JSON-shaped value. -/
def pyTruthy : Json → Bool
  | .null => false
  | .bool b => b
  | .num raw => !jsonNumIsZero raw
  | .str s => !s.data.isEmpty
  | .arr xs => !xs.isEmpty
  | .obj kvs => !kvs.isEmpty

/-- Coercion of a joined element to `str`: anything else raises TypeError. -/
def pyStrOf : Json → Except Unit String
  | .str s => .ok s
  | _ => .error ()

/-- Python `sep.join(xs)`: every element must be a `str`, else TypeError. -/
def pyJoin (sep : String) (xs : List Json) : Except Unit String := do
  let ss ← xs.mapM pyStrOf
  return String.intercalate sep ss

/-- Python `x == "auto"` for a value of unknown type: true only for the
equal string (comparison with a non-string is `False`, never an error). -/
def isAutoStr : Json → Bool
  | .str s => s == "auto"
  | _ => false

/-! ### `json.dumps(..., separators=(",", ":"))` -/

/-- Lowercase hex digit. -/
def hexDigit (n : Nat) : Char :=
  if n < 10 then Char.ofNat (48 + n) else Char.ofNat (87 + n)

/-- `\uXXXX` escape body for a code unit below `0x10000`. -/
def uEscape (n : Nat) : List Char :=
  ['\\', 'u', hexDigit (n / 4096 % 16), hexDigit (n / 256 % 16),
   hexDigit (n / 16 % 16), hexDigit (n % 16)]

/-- How `json.dumps` (default `ensure_ascii=True`) renders one character of
a string: short escapes for the two-character escapes, `\uXXXX` for other
control or non-ASCII characters (surrogate pairs above `0xFFFF`), the
character itself otherwise. -/
def escChar (c : Char) : List Char :=
  if c = '"' then ['\\', '"']
  else if c = '\\' then ['\\', '\\']
  else if c = '\n' then ['\\', 'n']
  else if c = '\r' then ['\\', 'r']
  else if c = '\t' then ['\\', 't']
  else if c = Char.ofNat 8 then ['\\', 'b']
  else if c = Char.ofNat 12 then ['\\', 'f']
  else if c.val < 32 || c.val > 126 then
    if c.val.toNat < 65536 then uEscape c.val.toNat
    else
      let v := c.val.toNat - 65536
      uEscape (55296 + v / 1024) ++ uEscape (56320 + v % 1024)
  else [c]

/-- String-body escaping of `json.dumps`. -/
def escStr (s : String) : String :=
  ⟨(s.data.map escChar).flatten⟩

mutual
/-- `json.dumps(v, separators=(",", ":"))`: compact serialization. -/
def dumps : Json → String
  | .null => "null"
  | .bool true => "true"
  | .bool false => "false"
  | .num raw => raw
  | .str s => "\"" ++ escStr s ++ "\""
  | .arr xs => "[" ++ String.intercalate "," (dumpsList xs) ++ "]"
  | .obj kvs => "\x7b" ++ String.intercalate "," (dumpsObj kvs) ++ "\x7d"

/-- Serialization of the elements of an array. -/
def dumpsList : List Json → List String
  | [] => []
  | x :: xs => dumps x :: dumpsList xs

/-- Serialization of the members of an object. -/
def dumpsObj : List (String × Json) → List String
  | [] => []
  | (k, v) :: kvs => ("\"" ++ escStr k ++ "\":" ++ dumps v) :: dumpsObj kvs
end

/-! ### `json.loads` -/

/-- JSON insignificant whitespace. -/
def skipWs (cs : List Char) : List Char :=
  cs.dropWhile (fun ch => ch = ' ' || ch = '\t' || ch = '\n' || ch = '\r')

/-- Hex digit value. -/
def hexVal (ch : Char) : Option Nat :=
  if '0' ≤ ch ∧ ch ≤ '9' then some (ch.toNat - 48)
  else if 'a' ≤ ch ∧ ch ≤ 'f' then some (ch.toNat - 87)
  else if 'A' ≤ ch ∧ ch ≤ 'F' then some (ch.toNat - 55)
  else none

/-- Four hex digits. -/
def parseHex4 : List Char → Option (Nat × List Char)
  | c1 :: c2 :: c3 :: c4 :: rest => do
    let v1 ← hexVal c1
    let v2 ← hexVal c2
    let v3 ← hexVal c3
    let v4 ← hexVal c4
    some (v1 * 4096 + v2 * 256 + v3 * 16 + v4, rest)
  | _ => none

/-- Body of a JSON string after the opening quote, strict mode (raw control
characters rejected); decodes escapes, pairs surrogates.  (Python strings
can hold lone surrogates; Lean `Char` cannot, so a lone surrogate escape is
rejected here -- no input in this development contains one.) -/
def parseStrChars : Nat → List Char → Except Unit (List Char × List Char)
  | 0, _ => .error ()
  | _, [] => .error ()
  | fuel + 1, ch :: rest =>
    if ch = '"' then .ok ([], rest)
    else if ch = '\\' then
      match rest with
      | [] => .error ()
      | e :: rest2 =>
        if e = '"' ∨ e = '\\' ∨ e = '/' then
          (fun p => (e :: p.1, p.2)) <$> parseStrChars fuel rest2
        else if e = 'b' then (fun p => (Char.ofNat 8 :: p.1, p.2)) <$> parseStrChars fuel rest2
        else if e = 'f' then (fun p => (Char.ofNat 12 :: p.1, p.2)) <$> parseStrChars fuel rest2
        else if e = 'n' then (fun p => ('\n' :: p.1, p.2)) <$> parseStrChars fuel rest2
        else if e = 'r' then (fun p => ('\r' :: p.1, p.2)) <$> parseStrChars fuel rest2
        else if e = 't' then (fun p => ('\t' :: p.1, p.2)) <$> parseStrChars fuel rest2
        else if e = 'u' then
          match parseHex4 rest2 with
          | none => .error ()
          | some (n, rest3) =>
            if 55296 ≤ n ∧ n ≤ 56319 then
              match rest3 with
              | '\\' :: 'u' :: rest4 =>
                match parseHex4 rest4 with
                | some (m, rest5) =>
                  if 56320 ≤ m ∧ m ≤ 57343 then
                    (fun p => (Char.ofNat (65536 + (n - 55296) * 1024 + (m - 56320)) :: p.1, p.2))
                      <$> parseStrChars fuel rest5
                  else .error ()
                | none => .error ()
              | _ => .error ()
            else if 56320 ≤ n ∧ n ≤ 57343 then .error ()
            else (fun p => (Char.ofNat n :: p.1, p.2)) <$> parseStrChars fuel rest2
        else .error ()
    else if ch.val < 32 then .error ()
    else (fun p => (ch :: p.1, p.2)) <$> parseStrChars fuel rest

/-- Strict JSON number lexeme: `-? (0 | [1-9][0-9]*) (.[0-9]+)? ([eE][+-]?[0-9]+)?`. -/
def parseNumLex (cs : List Char) : Except Unit (List Char × List Char) :=
  let (sign, cs1) := match cs with
    | '-' :: rest => (['-'], rest)
    | _ => ([], cs)
  match cs1 with
  | [] => .error ()
  | d :: rest =>
    if d = '0' then
      let (tail, cs2) := afterInt rest
      match tail with
      | .some t => .ok (sign ++ ['0'] ++ t, cs2)
      | .none => .error ()
    else if d.isDigit then
      let digits := rest.takeWhile Char.isDigit
      let cs15 := rest.dropWhile Char.isDigit
      let (tail, cs2) := afterInt cs15
      match tail with
      | .some t => .ok (sign ++ (d :: digits) ++ t, cs2)
      | .none => .error ()
    else .error ()
where
  /-- Optional fraction and exponent after the integer part. -/
  afterInt (cs : List Char) : Option (List Char) × List Char :=
    let (frac, cs1) := match cs with
      | '.' :: rest =>
        let ds := rest.takeWhile Char.isDigit
        if ds.isEmpty then (none, cs)
        else (some ('.' :: ds), rest.dropWhile Char.isDigit)
      | _ => (some [], cs)
    match frac with
    | none => (none, cs)
    | some f =>
      match cs1 with
      | e :: rest =>
        if e = 'e' ∨ e = 'E' then
          let (sgn, rest2) := match rest with
            | '+' :: r => (['+'], r)
            | '-' :: r => (['-'], r)
            | _ => ([], rest)
          let ds := rest2.takeWhile Char.isDigit
          if ds.isEmpty then (none, cs1)
          else (some (f ++ (e :: sgn) ++ ds), rest2.dropWhile Char.isDigit)
        else (some f, cs1)
      | [] => (some f, cs1)

/-- Insert into a parsed object, last occurrence of a key winning in place
(Python dict update semantics). -/
def objInsert (kvs : List (String × Json)) (k : String) (v : Json) : List (String × Json) :=
  if kvs.any (fun kv => kv.1 == k) then
    kvs.map (fun kv => if kv.1 == k then (k, v) else kv)
  else kvs ++ [(k, v)]

mutual
/-- One JSON value at the head of the input (leading whitespace already
consumed), `fuel`-bounded recursion. -/
def parseVal : Nat → List Char → Except Unit (Json × List Char)
  | 0, _ => .error ()
  | fuel + 1, cs =>
    match cs with
    | 'n' :: 'u' :: 'l' :: 'l' :: rest => .ok (.null, rest)
    | 't' :: 'r' :: 'u' :: 'e' :: rest => .ok (.bool true, rest)
    | 'f' :: 'a' :: 'l' :: 's' :: 'e' :: rest => .ok (.bool false, rest)
    | 'N' :: 'a' :: 'N' :: rest => .ok (.num "NaN", rest)
    | 'I' :: 'n' :: 'f' :: 'i' :: 'n' :: 'i' :: 't' :: 'y' :: rest => .ok (.num "Infinity", rest)
    | '-' :: 'I' :: 'n' :: 'f' :: 'i' :: 'n' :: 'i' :: 't' :: 'y' :: rest => .ok (.num "-Infinity", rest)
    | '"' :: rest =>
      match parseStrChars (rest.length + 1) rest with
      | .ok (content, rest2) => .ok (.str ⟨content⟩, rest2)
      | .error _ => .error ()
    | '[' :: rest =>
      match skipWs rest with
      | ']' :: rest2 => .ok (.arr [], rest2)
      | rest2 =>
        match parseElems fuel rest2 with
        | .ok (xs, rest3) => .ok (.arr xs, rest3)
        | .error _ => .error ()
    | '\x7b' :: rest =>
      match skipWs rest with
      | '\x7d' :: rest2 => .ok (.obj [], rest2)
      | rest2 =>
        match parseMembers fuel rest2 [] with
        | .ok (kvs, rest3) => .ok (.obj kvs, rest3)
        | .error _ => .error ()
    | _ =>
      match parseNumLex cs with
      | .ok (lex, rest) => .ok (.num ⟨lex⟩, rest)
      | .error _ => .error ()

/-- Comma-separated array elements up to the closing bracket. -/
def parseElems : Nat → List Char → Except Unit (List Json × List Char)
  | 0, _ => .error ()
  | fuel + 1, cs =>
    match parseVal fuel cs with
    | .error _ => .error ()
    | .ok (v, rest) =>
      match skipWs rest with
      | ',' :: rest2 =>
        match parseElems fuel (skipWs rest2) with
        | .ok (xs, rest3) => .ok (v :: xs, rest3)
        | .error _ => .error ()
      | ']' :: rest2 => .ok ([v], rest2)
      | _ => .error ()

/-- Comma-separated object members up to the closing brace. -/
def parseMembers : Nat → List Char → List (String × Json) → Except Unit (List (String × Json) × List Char)
  | 0, _, _ => .error ()
  | fuel + 1, cs, acc =>
    match cs with
    | '"' :: rest =>
      match parseStrChars (rest.length + 1) rest with
      | .error _ => .error ()
      | .ok (key, rest2) =>
        match skipWs rest2 with
        | ':' :: rest3 =>
          match parseVal fuel (skipWs rest3) with
          | .error _ => .error ()
          | .ok (v, rest4) =>
            let acc2 := objInsert acc ⟨key⟩ v
            match skipWs rest4 with
            | ',' :: rest5 => parseMembers fuel (skipWs rest5) acc2
            | '\x7d' :: rest5 => .ok (acc2, rest5)
            | _ => .error ()
        | _ => .error ()
    | _ => .error ()
end

/-- `json.loads`: parse one document, allowing surrounding whitespace. -/
def loads (s : String) : Except Unit Json :=
  match parseVal (2 * s.data.length + 8) (skipWs s.data) with
  | .ok (v, rest) => if skipWs rest = [] then .ok v else .error ()
  | .error _ => .error ()

/-! ### Response framer (`AiohttpTranslator.translate`, lines 229-249) -/

/-- The fixed protocol constant `RPC_ID`. -/
def RPC_ID : String := "MkEWBc"

/-- Python substring test `needle in hay`. -/
def strIn (needle hay : List Char) : Bool :=
  hay.tails.any (fun t => needle.isPrefixOf t)

/-- `f'"{RPC_ID}"' in line[:30]`: the quoted RPC id occurs within the first
30 characters of the line. -/
def markerIn (line : String) : Bool :=
  strIn ('"' :: RPC_ID.data ++ ['"']) (line.data.take 30)

/-- Whether `is_in_string` flips on this character:
`char == '"' and line[max(0, index - 1)] != "\\"`.  `prev` is the previous
character, `none` at index 0 -- there the source compares the quote with
itself, which is not a backslash, so the flag always flips. -/
def quoteToggles (prev : Option Char) (ch : Char) : Bool :=
  ch == '"' && (match prev with | some p => p != '\\' | none => true)

/-- One step of the character scan: toggle `is_in_string` on an unescaped
quote, then count a bracket when outside a string. -/
def scanAux : Option Char → Bool → Nat → Nat → List Char → Bool × Nat × Nat
  | _, ins, o, c, [] => (ins, o, c)
  | prev, ins, o, c, ch :: rest =>
    let ins' := if quoteToggles prev ch then !ins else ins
    let oc : Nat × Nat :=
      if ins' then (o, c)
      else if ch == '[' then (o + 1, c)
      else if ch == ']' then (o, c + 1)
      else (o, c)
    scanAux (some ch) ins' oc.1 oc.2 rest

/-- Bracket counts after scanning one line (the source re-creates
`is_in_string = False` for every line). -/
def scanLine (o c : Nat) (line : List Char) : Nat × Nat :=
  (scanAux none false o c line).2

/-- Whether the line scanner finishes the line inside a quoted string. -/
def endsInString (line : List Char) : Bool :=
  (scanAux none false 0 0 line).1

/-- Result of the framing loop: accumulated text `resp`, final bracket
counts, whether the marker was ever found, and whether the loop exited by
`break` (balance reached) rather than by exhausting the lines. -/
structure FrameResult where
  resp : String
  opens : Nat
  closes : Nat
  found : Bool
  broke : Bool
deriving DecidableEq

/-- The framing loop over the lines of the response body. -/
def frameLoop : Bool → Nat → Nat → String → List String → FrameResult
  | found, o, c, acc, [] => ⟨acc, o, c, found, false⟩
  | found, o, c, acc, line :: rest =>
    let found' := found || markerIn line
    if found' then
      let oc := scanLine o c line.data
      let acc' := acc ++ line
      if oc.1 = oc.2 then ⟨acc', oc.1, oc.2, found', true⟩
      else frameLoop found' oc.1 oc.2 acc' rest
    else frameLoop found' o c acc rest

/-- Framing over a list of lines. -/
def frameLines (lines : List String) : FrameResult :=
  frameLoop false 0 0 "" lines

/-- `body.split("\n")`, accumulator-style: the (possibly empty) segments
between newline characters, in order. -/
def splitLinesAux : List Char → List Char → List String
  | [], cur => [⟨cur.reverse⟩]
  | '\n' :: rest, cur => ⟨cur.reverse⟩ :: splitLinesAux rest []
  | ch :: rest, cur => splitLinesAux rest (ch :: cur)

/-- Python `body.split("\n")`. -/
def splitLines (body : String) : List String :=
  splitLinesAux body.data []

/-- The framer: split the body on newlines and run the loop. -/
def frame (body : String) : FrameResult :=
  frameLines (splitLines body)

/-! ### Language resolver (`translate`, lines 207-224) -/

/-- Modelled from the spec: the three lookup tables of the language-table
collaborator (`LANGUAGES`, `SPECIAL_CASES`, `LANGCODES` from
`aiogtrans.constants`, which is not among the sources under verification):
recognized language codes, special-case alias → code, and
human-readable-name → code. -/
structure LangTables where
  languages : List String
  specialCases : List (String × String)
  langcodes : List (String × String)

/-- ASCII lower-casing, `str.lower` on the tags this client handles. -/
def pyLower (s : String) : String :=
  ⟨s.data.map Char.toLower⟩

/-- ASCII upper-casing, `str.upper` on the tags this client handles. -/
def pyUpper (s : String) : String :=
  ⟨s.data.map Char.toUpper⟩

/-- `tag.lower().split("_", 1)[0]`: lower-case, keep the prefix before the
first underscore. -/
def normTag (tag : String) : String :=
  ⟨(pyLower tag).data.takeWhile (fun ch => ch ≠ '_')⟩

/-- The error taxonomy of the pipeline.  `invalidLanguage` carries the
normalized offending tag and whether it was the source; `unexpectedStatus`
carries the status code and the configured service-URL list exactly as the
source's exception message does; `jsonError` is a `json.loads` failure;
`pyError` any other uncaught exception (IndexError/TypeError/KeyError). -/
inductive TransError where
  | invalidLanguage (tag : String) (isSource : Bool) : TransError
  | unexpectedStatus (status : Nat) (serviceUrls : List String) : TransError
  | jsonError : TransError
  | pyError : TransError
deriving DecidableEq

/-- The inline tag resolution of `translate`: normalize, accept `auto` when
allowed, accept recognized codes, then try the special-case table, then the
name table, else `ValueError`. -/
def resolveLang (tb : LangTables) (allowAuto : Bool) (isSource : Bool) (tag0 : String) :
    Except TransError String :=
  let tag := normTag tag0
  if (allowAuto && tag == "auto") || tb.languages.contains tag then .ok tag
  else
    match tb.specialCases.lookup tag with
    | some v => .ok v
    | none =>
      match tb.langcodes.lookup tag with
      | some v => .ok v
      | none => .error (.invalidLanguage tag isSource)

/-! ### Request encoder (`AiohttpTranslator._build_rpc_request`) -/

/-- `_build_rpc_request`: double JSON-encoding of the request triple.  The
inner document is `[[text, src, dest, true], [null]]`; its compact
serialization is wrapped as `[[[RPC_ID, inner, null, "generic"]]]` and
serialized again (both `json.dumps` calls use `separators=(",", ":")`). -/
def buildRpcRequest (text dest src : String) : String :=
  let transInfo := dumps (.arr [.arr [.str text, .str src, .str dest, .bool true], .arr [.null]])
  dumps (.arr [.arr [.arr [.str RPC_ID, .str transInfo, .null, .str "generic"]]])

/-- Modelled from the spec: `urls.TRANSLATE_RPC.format(host=...)` (the
`aiogtrans.urls` module is not among the sources under verification); the
spec gives the path template `{serviceHost}/_/TranslateWebserverUi/data/batchexecute`. -/
def rpcUrl (host : String) : String :=
  host ++ "/_/TranslateWebserverUi/data/batchexecute"

/-- Modelled from the spec: `DEFAULT_RAISE_EXCEPTION` from
`aiogtrans.constants` (not among the sources under verification); the spec
says the raise-on-error toggle's "default is to raise". -/
def defaultRaiseException : Bool := true

/-- The client configuration consulted by the pipeline. -/
structure ClientConfig where
  serviceUrls : List String
  raiseException : Bool

/-! ### Response decoder (`translate`, lines 254-307) -/

/-- `TranslatedPart(text, candidates)`; the constructor stores whatever
values it is given. -/
structure TranslatedPart where
  text : Json
  candidates : Json

/-- `TranslatedPart(part[0], part[1] if len(part) >= 2 else [])` for one
entry of `parsed[1][0][0][5]` (argument positions evaluated left to
right). -/
def entryToPart (part : Json) : Except Unit TranslatedPart := do
  let t ← pySubscript part 0
  let n ← pyLen part
  let c ← if 2 ≤ n then pySubscript part 1 else Except.ok (Json.arr [])
  return ⟨t, c⟩

/-- Lines 254-263 of `translate`: read `should_spacing`, build the part
list, and join the part texts with `" "` or `""` according to the
truthiness of `should_spacing`. -/
def decodeParts (parsed : Json) : Except Unit (List TranslatedPart × String) := do
  let shouldSpacing ← pyPath parsed [1, 0, 0, 3]
  let rawParts ← pyPath parsed [1, 0, 0, 5]
  let elems ← pyIter rawParts
  let parts ← elems.mapM entryToPart
  let translated ← pyJoin (if pyTruthy shouldSpacing then " " else "") (parts.map (·.text))
  return (parts, translated)

/-- Lines 265-274 of `translate`: when `src` is (still) the string
`"auto"`, try `parsed[2]` (keeping whatever value the subscript yields);
when the result still equals `"auto"`, try `parsed[0][2]`; failures of
either subscript are swallowed. -/
def resolveAutoSrc (parsed : Json) (src : Json) : Json :=
  let src1 := if isAutoStr src then
      match pySubscript parsed 2 with
      | .ok v => v
      | .error _ => src
    else src
  if isAutoStr src1 then
    match pyPath parsed [0, 2] with
    | .ok v => v
    | .error _ => src1
  else src1

/-- A `try: ... except: pass` optional extraction: the path's value on
success, Python `None` otherwise. -/
def tryPath (parsed : Json) (is : List Nat) : Json :=
  match pyPath parsed is with
  | .ok v => v
  | .error _ => .null

/-- The `Translated` result fields the core populates (the `extra_data`
mapping duplicates `parts`/`origin_pronunciation`/`parsed` and the
always-`None` confidence; the raw `aiohttp` response object is outside the
embedding). -/
structure Translated where
  src : Json
  dest : String
  origin : String
  text : String
  pronunciation : Json
  parts : List TranslatedPart
  originPronunciation : Json

/-- The full `translate` pipeline.  The transport adapter is an oracle
`post` from the request URL and the encoded `f.req` payload to the pair of
HTTP status and body text; the second component of the result counts how
many times the oracle was invoked (the code contains a single `post`
call). -/
def translateModel (tb : LangTables) (cfg : ClientConfig) (host : String)
    (post : String → String → Nat × String)
    (text : String) (dest0 : String) (src0 : String) :
    Except TransError Translated × Nat :=
  match resolveLang tb true true src0 with
  | .error e => (.error e, 0)
  | .ok src =>
    match resolveLang tb false false dest0 with
    | .error e => (.error e, 0)
    | .ok dest =>
      let origin := text
      let sb := post (rpcUrl host) (buildRpcRequest text dest src)
      if sb.1 ≠ 200 ∧ cfg.raiseException then
        (.error (.unexpectedStatus sb.1 cfg.serviceUrls), 1)
      else
        let fr := frame sb.2
        match loads fr.resp with
        | .error _ => (.error .jsonError, 1)
        | .ok data =>
          match pyPath data [0, 2] with
          | .error _ => (.error .pyError, 1)
          | .ok inner =>
            match inner with
            | .str innerS =>
              match loads innerS with
              | .error _ => (.error .jsonError, 1)
              | .ok parsed =>
                match decodeParts parsed with
                | .error _ => (.error .pyError, 1)
                | .ok pt =>
                  let src2 := resolveAutoSrc parsed (.str src)
                  let pron := tryPath parsed [1, 0, 0, 1]
                  let originPron := tryPath parsed [0, 0]
                  (.ok ⟨src2, dest, origin, pt.2, pron, pt.1, originPron⟩, 1)
            | _ => (.error .pyError, 1)

/-! ### Specification-side definition and concrete inputs -/

/-- Defined from the spec's words (for the refinement claim about the part
extraction): "for each entry, part text = entry[0]; part candidates =
entry[1] if present and entry has ≥ 2 elements, else empty sequence". -/
def specEntryPart : Json → Option TranslatedPart
  | .arr (t :: rest) =>
    some ⟨t, match rest with | c :: _ => c | [] => .arr []⟩
  | _ => none

/-- A concrete single-line response body: it carries the quoted marker in
its first 30 characters, is valid JSON of the expected doubly-encoded
shape, and its final string element `"x\\"` ends with an escaped backslash,
which the framer's one-character look-behind misreads as an escaped quote,
leaving the scanner "inside a string" for the closing brackets. -/
def bodyCE : String :=
  "[[\"wrb.fr\",\"MkEWBc\",\"[null,[[[null,null,null,true,null,[[\\\"hi\\\"]]]]]]\",\"x\\\\\"]]"

/-- A concrete language-table instance. -/
def tbCE : LangTables := ⟨["en", "fr"], [("he", "iw")], [("french", "fr")]⟩

/-- A concrete client configuration with two service hosts. -/
def cfgCE : ClientConfig := ⟨["a.example", "b.example"], true⟩

/-- A transport oracle answering 200 with `bodyCE`. -/
def postOkCE : String → String → Nat × String := fun _ _ => (200, bodyCE)

/-- A transport oracle answering 404. -/
def post404 : String → String → Nat × String := fun _ _ => (404, "")

/-- A transport oracle answering 200 with an empty body. -/
def postEmpty : String → String → Nat × String := fun _ _ => (200, "")

/-- The quoted-string line of the spec's framing test. -/
def notBracketLine : String := "\"[not a bracket]\""

/-- A parsed payload carrying the spec's example parts
`[["Hello", []], ["world", []]]` at `[1][0][0][5]` and the spacing flag `b`
at `[1][0][0][3]`. -/
def parsedHello (b : Bool) : Json :=
  .arr [.null, .arr [.arr [.arr [.null, .null, .null, .bool b, .null,
    .arr [.arr [.str "Hello", .arr []], .arr [.str "world", .arr []]]]]]]

/-- The entry list of `parsedHello`. -/
def helloEntries : List Json :=
  [.arr [.str "Hello", .arr []], .arr [.str "world", .arr []]]

/-- The part list `decode` builds from `parsedHello`. -/
def helloParts : List TranslatedPart :=
  [⟨.str "Hello", .arr []⟩, ⟨.str "world", .arr []⟩]

/-- A parsed payload whose `[2]` element exists but is `null` while
`[0][2]` is the string `"fr"`. -/
def parsedNullSrc : Json :=
  .arr [.arr [.str "x", .str "y", .str "fr"], .null, .null]

/-! ### Helper lemmas -/

/-- Rebuilding a string from its character data. -/
theorem string_mk_data (s : String) : String.mk s.data = s := by
  cases s
  rfl

/-- Appending to the empty string. -/
theorem empty_string_append (s : String) : "" ++ s = s := by
  cases s
  rfl

/-- While the scanner is inside a string, characters that are neither
quotes nor backslashes leave the whole scanner state unchanged, and an
unescaped closing quote returns it to the outside. -/
theorem scanAux_inString (mid : List Char) :
    ∀ (p : Option Char) (o c : Nat) (tail : List Char),
      '"' ∉ mid → '\\' ∉ mid → p ≠ some '\\' →
      scanAux p true o c (mid ++ '"' :: tail) = scanAux (some '"') false o c tail := by
  induction mid with
  | nil =>
    intro p o c tail _ _ hp
    match p with
    | none => rfl
    | some q =>
      have hq : (q != '\\') = true := by
        have hne : q ≠ '\\' := fun h => hp (by rw [h])
        simp [hne]
      show scanAux (some q) true o c ('"' :: tail) = _
      simp only [scanAux, quoteToggles, hq]
      rfl
  | cons x mid' ih =>
    intro p o c tail hq hb hp
    have hx1 : (x == '"') = false := by
      have : ¬ x = '"' := fun h => hq (by rw [← h]; exact List.mem_cons_self x mid')
      simp [this]
    have hx2 : x ≠ '\\' := fun h => hb (by rw [← h]; exact List.mem_cons_self x mid')
    show scanAux p true o c (x :: (mid' ++ '"' :: tail)) = _
    simp only [scanAux, quoteToggles, hx1, Bool.false_and]
    exact ih (some x) o c tail (fun h => hq (List.mem_cons_of_mem _ h))
      (fun h => hb (List.mem_cons_of_mem _ h)) (by simp [hx2])

/-- Before the marker is found, lines are skipped without touching the
state. -/
theorem frameLoop_skip_unmarked (pre : List String) :
    ∀ (rest : List String) (o c : Nat) (acc : String),
      (∀ l ∈ pre, markerIn l = false) →
      frameLoop false o c acc (pre ++ rest) = frameLoop false o c acc rest := by
  induction pre with
  | nil => intro rest o c acc _; rfl
  | cons l pre' ih =>
    intro rest o c acc h
    have h1 : markerIn l = false := h l (List.mem_cons_self l pre')
    show frameLoop false o c acc (l :: (pre' ++ rest)) = _
    simp only [frameLoop, h1, Bool.false_or, Bool.false_eq_true, if_false]
    exact ih rest o c acc (fun x hx => h x (List.mem_cons_of_mem _ hx))

/-- A body none of whose lines carries the marker leaves the loop state
untouched: the accumulator stays empty and nothing was found. -/
theorem frameLoop_no_marker (ls : List String) :
    ∀ (o c : Nat) (acc : String), (∀ l ∈ ls, markerIn l = false) →
      frameLoop false o c acc ls = ⟨acc, o, c, false, false⟩ := by
  induction ls with
  | nil => intro o c acc _; rfl
  | cons l ls' ih =>
    intro o c acc h
    have h1 : markerIn l = false := h l (List.mem_cons_self l ls')
    show frameLoop false o c acc (l :: ls') = _
    simp only [frameLoop, h1, Bool.false_or, Bool.false_eq_true, if_false]
    exact ih o c acc (fun x hx => h x (List.mem_cons_of_mem _ hx))

/-! ### Claims -/

/-- C8: for every input triple, the request encoder returns the compact
JSON serialization of `[[["MkEWBc", innerJSON, null, "generic"]]]` where
`innerJSON` is the compact JSON serialization of
`[[text, src, dest, true], [null]]`; encoding is deterministic, so two
calls on the same triple yield byte-identical output (checked on a
concrete triple down to the exact byte string). -/
theorem rpc_request_is_double_encoded_wrap :
    (∀ (text src dest : String), buildRpcRequest text dest src =
      dumps (.arr [.arr [.arr [.str "MkEWBc",
        .str (dumps (.arr [.arr [.str text, .str src, .str dest, .bool true], .arr [.null]])),
        .null, .str "generic"]]])) ∧
    (∀ (text src dest : String),
      buildRpcRequest text dest src = buildRpcRequest text dest src) ∧
    buildRpcRequest "Hello" "en" "auto" =
      "[[[\"MkEWBc\",\"[[\\\"Hello\\\",\\\"auto\\\",\\\"en\\\",true],[null]]\",null,\"generic\"]]]" :=
  ⟨fun _ _ _ => rfl, fun _ _ _ => rfl, by decide⟩

/-- C1 (counterexample): a response body whose marker line contains zero
bracket characters.  The claim says framing "does not stop at the marker
line but continues to subsequent lines"; the code stops right there: the
balance check `0 == 0` fires after the marker line itself, the accumulator
holds only the marker line, and the following line `X[]` is never
reached. -/
theorem frame_stops_on_bracketless_marker_line :
    frame "\"MkEWBc\"\nX[]" = ⟨"\"MkEWBc\"", 0, 0, true, true⟩ ∧
    markerIn "\"MkEWBc\"" = true ∧
    "\"MkEWBc\"".data.all (fun ch => (ch != '[') && (ch != ']')) = true :=
  ⟨by decide, by decide, by decide⟩

/-- C1 (amended): the balance check `open == close` runs after accumulating
each line, including the marker line itself; if the marker line contributes
zero brackets, the state `open == close == 0` terminates the scan at the
marker line, whose text is then the whole framed payload (in practice the
marker line opens the outer array, so the check does not fire there). -/
theorem balance_check_fires_on_bracketless_marker_line (pre : List String)
    (marker : String) (rest : List String)
    (hpre : ∀ l ∈ pre, markerIn l = false)
    (hm : markerIn marker = true)
    (hscan : scanLine 0 0 marker.data = (0, 0)) :
    frameLines (pre ++ marker :: rest) = ⟨marker, 0, 0, true, true⟩ := by
  unfold frameLines
  rw [frameLoop_skip_unmarked pre (marker :: rest) 0 0 "" hpre]
  show frameLoop false 0 0 "" (marker :: rest) = _
  simp only [frameLoop, hm, Bool.false_or, hscan, empty_string_append]
  simp

/-- Witness for the amended C1 theorem at a concrete body. -/
theorem balance_check_fires_on_bracketless_marker_line_w :
    frameLines (["xx"] ++ "\"MkEWBc\"" :: ["X[]"]) = ⟨"\"MkEWBc\"", 0, 0, true, true⟩ :=
  balance_check_fires_on_bracketless_marker_line ["xx"] "\"MkEWBc\"" ["X[]"]
    (by decide) (by decide) (by decide)

/-- C2: a `[` or `]` between unescaped quotes does not change the bracket
counts (first conjunct: a whole quoted string containing no quote or
backslash leaves any counts unchanged), and a line consisting of the
quoted string `"[not a bracket]"` appended while an array is already open
(`open ≠ close`) does not terminate framing: the loop keeps scanning the
remaining lines. -/
theorem quoted_brackets_do_not_count :
    (∀ (mid : List Char) (o c : Nat), '"' ∉ mid → '\\' ∉ mid →
      scanLine o c ('"' :: (mid ++ ['"'])) = (o, c)) ∧
    (∀ (o c : Nat) (acc : String) (rest : List String), o ≠ c →
      frameLoop true o c acc (notBracketLine :: rest) =
        frameLoop true o c (acc ++ notBracketLine) rest) := by
  constructor
  · intro mid o c hq hb
    unfold scanLine
    have h1 : scanAux none false o c ('"' :: (mid ++ ['"'])) =
        scanAux (some '"') true o c (mid ++ '"' :: []) := rfl
    rw [h1, scanAux_inString mid (some '"') o c [] hq hb (by simp)]
    rfl
  · intro o c acc rest hoc
    have hsc : scanLine o c notBracketLine.data = (o, c) := rfl
    show frameLoop true o c acc (notBracketLine :: rest) = _
    simp only [frameLoop, Bool.true_or, hsc]
    simp [hoc]

/-- Witness for C2 at concrete counts and lines. -/
theorem quoted_brackets_do_not_count_w :
    scanLine 2 1 ('"' :: (['['] ++ ['"'])) = (2, 1) ∧
    frameLoop true 1 0 "x" (notBracketLine :: []) =
      frameLoop true 1 0 ("x" ++ notBracketLine) [] :=
  ⟨quoted_brackets_do_not_count.1 ['['] 2 1 (by decide) (by decide),
   quoted_brackets_do_not_count.2 1 0 "x" [] (by decide)⟩

/-- C10 (implicit): `is_in_string` is re-initialized to `False` at the
start of every line, so quote state never carries across line boundaries:
when a line leaves the scanner inside an unterminated string, a `]` on the
next line is still counted (first conjunct), and when that line had left
exactly one excess `[`, the `]` line even terminates framing (second
conjunct). -/
theorem in_string_flag_reset_per_line (l1 : List Char) (o c : Nat)
    (hstr : endsInString l1 = true) :
    (scanLine (scanLine o c l1).1 (scanLine o c l1).2 [']'] =
      ((scanLine o c l1).1, (scanLine o c l1).2 + 1)) ∧
    (∀ (acc : String) (rest : List String),
      (scanLine o c l1).1 = (scanLine o c l1).2 + 1 →
      frameLoop true o c acc (String.mk l1 :: "]" :: rest) =
        ⟨acc ++ String.mk l1 ++ "]", (scanLine o c l1).1, (scanLine o c l1).2 + 1, true, true⟩) := by
  refine ⟨rfl, ?_⟩
  intro acc rest hbal
  show frameLoop true o c acc (String.mk l1 :: "]" :: rest) = _
  have hd : (String.mk l1).data = l1 := rfl
  have hne : ¬ (scanLine o c l1).1 = (scanLine o c l1).2 := by
    rw [hbal]; exact Nat.succ_ne_self _
  simp only [frameLoop, Bool.true_or, hd]
  rw [if_neg hne]
  have hstep : scanLine (scanLine o c l1).1 (scanLine o c l1).2 "]".data =
      ((scanLine o c l1).1, (scanLine o c l1).2 + 1) := rfl
  simp only [frameLoop, Bool.true_or, hstep]
  simp [if_pos hbal]

/-- Witness for C10: the line `["ab` leaves the scanner inside a string
with one excess open bracket; the next line `]` closes the frame. -/
theorem in_string_flag_reset_per_line_w :
    scanLine (scanLine 0 0 "[\"ab".data).1 (scanLine 0 0 "[\"ab".data).2 [']'] =
      ((scanLine 0 0 "[\"ab".data).1, (scanLine 0 0 "[\"ab".data).2 + 1) ∧
    frameLoop true 0 0 "" (String.mk "[\"ab".data :: "]" :: []) =
      ⟨"" ++ String.mk "[\"ab".data ++ "]", (scanLine 0 0 "[\"ab".data).1,
        (scanLine 0 0 "[\"ab".data).2 + 1, true, true⟩ :=
  ⟨(in_string_flag_reset_per_line "[\"ab".data 0 0 (by decide)).1,
   (in_string_flag_reset_per_line "[\"ab".data 0 0 (by decide)).2 "" [] (by decide)⟩

/-- An entry the spec-side extraction accepts is mapped identically by the
source's `TranslatedPart(part[0], part[1] if len(part) >= 2 else [])`. -/
theorem entryToPart_of_spec (e : Json) (p : TranslatedPart)
    (h : specEntryPart e = some p) : entryToPart e = .ok p := by
  match e, h with
  | .arr (t :: rest), h =>
    match rest with
    | [] =>
      simp only [specEntryPart] at h
      injection h with h1
      subst h1
      rfl
    | c :: rest' =>
      simp only [specEntryPart] at h
      injection h with h1
      subst h1
      have h0 : pySubscript (Json.arr (t :: c :: rest')) 0 = .ok t := rfl
      have hlt : 1 < (t :: c :: rest').length := by
        simp only [List.length_cons]
        omega
      have h1' : pySubscript (Json.arr (t :: c :: rest')) 1 = .ok c := by
        simp only [pySubscript]
        rw [dif_pos hlt]
        rfl
      have h2' : pyLen (Json.arr (t :: c :: rest')) = .ok (rest'.length + 2) := rfl
      simp only [entryToPart, h0, h2', h1', bind, Except.bind]
      rw [if_pos (by omega : 2 ≤ rest'.length + 2)]
      rfl

/-- Entry lists accepted by the spec-side extraction are mapped identically
by the source's per-entry construction. -/
theorem mapM_entryToPart (entries : List Json) :
    ∀ (parts : List TranslatedPart), entries.mapM specEntryPart = some parts →
      entries.mapM entryToPart = .ok parts := by
  induction entries with
  | nil =>
    intro parts h
    simp only [List.mapM_nil] at h ⊢
    injection h with h1
    rw [← h1]
    rfl
  | cons e es ih =>
    intro parts h
    rw [List.mapM_cons] at h ⊢
    cases hsp : specEntryPart e with
    | none => rw [hsp] at h; simp at h
    | some p =>
      rw [hsp] at h
      cases hms : es.mapM specEntryPart with
      | none => rw [hms] at h; simp at h
      | some ps =>
        rw [hms] at h
        simp only [Option.pure_def, Option.bind_eq_bind, Option.some_bind,
          Option.some.injEq] at h
        subst h
        rw [entryToPart_of_spec e p hsp, ih ps hms]
        rfl

/-- Joining a list of strings succeeds and intercalates. -/
theorem pyJoin_strs (sep : String) (texts : List String) :
    pyJoin sep (texts.map Json.str) = .ok (String.intercalate sep texts) := by
  have hm : ∀ ts : List String, (ts.map Json.str).mapM pyStrOf = Except.ok ts := by
    intro ts
    induction ts with
    | nil => rfl
    | cons t ts ih =>
      rw [List.map_cons, List.mapM_cons]
      rw [show pyStrOf (Json.str t) = .ok t from rfl, ih]
      rfl
  simp only [pyJoin, hm, bind, Except.bind]
  rfl

/-- C4: for every parsed payload, decode builds the ordered parts from
`parsed[1][0][0][5]` -- each part's text is `entry[0]`, its candidates
`entry[1]` when the entry has at least 2 elements and the empty sequence
otherwise (the spec-side extraction `specEntryPart`) -- and the translated
text joins the part texts with a single space when `parsed[1][0][0][3]` is
`true` and with no separator when it is `false`; on the spec's example
parts the results are `"Hello world"` versus `"Helloworld"`. -/
theorem decode_parts_refines_spec :
    (∀ (parsed : Json) (b : Bool) (entries : List Json)
      (parts : List TranslatedPart) (texts : List String),
      pyPath parsed [1, 0, 0, 3] = .ok (.bool b) →
      pyPath parsed [1, 0, 0, 5] = .ok (.arr entries) →
      entries.mapM specEntryPart = some parts →
      parts.map TranslatedPart.text = texts.map Json.str →
      decodeParts parsed = .ok (parts, String.intercalate (if b then " " else "") texts)) ∧
    decodeParts (parsedHello true) = .ok (helloParts, "Hello world") ∧
    decodeParts (parsedHello false) = .ok (helloParts, "Helloworld") := by
  refine ⟨?_, rfl, rfl⟩
  intro parsed b entries parts texts h3 h5 hmap htexts
  simp only [decodeParts, h3, h5, bind, Except.bind, pyIter,
    mapM_entryToPart entries parts hmap, htexts, pyJoin_strs, pyTruthy, pure]
  rfl

/-- Witness for C4 on the spec's example payload. -/
theorem decode_parts_refines_spec_w :
    decodeParts (parsedHello true) = .ok (helloParts, "Hello world") :=
  decode_parts_refines_spec.1 (parsedHello true) true helloEntries helloParts
    ["Hello", "world"] rfl rfl rfl rfl

/-- C5 (counterexample): with `parsed = [["x","y","fr"], null, null]` and
requested source `"auto"`, the code assigns `src = parsed[2] = null` --
it does not fall back to `parsed[0][2] = "fr"` on a wrong-typed value as
the claim states -- and when both subscripts fail (`parsed = []`) the
surfaced value is the sentinel `"auto"`, not `"unknown"`. -/
theorem auto_source_not_spec_fallback :
    resolveAutoSrc parsedNullSrc (.str "auto") = Json.null ∧
    Json.null ≠ Json.str "fr" ∧
    pyPath parsedNullSrc [0, 2] = .ok (.str "fr") ∧
    resolveAutoSrc (Json.arr []) (.str "auto") = .str "auto" ∧
    Json.str "auto" ≠ Json.str "unknown" := by
  refine ⟨rfl, fun h => Json.noConfusion h, rfl, rfl, fun h => ?_⟩
  injection h with h1
  exact absurd h1 (by decide)

/-- C5 (amended): with requested source `"auto"`, decode assigns
`parsed[2]` whenever that subscript succeeds, whatever the value (even
`null`); only when the subscript raises (or yields the literal string
`"auto"`) does it attempt `parsed[0][2]`; when both attempts fail the
source stays the `"auto"` sentinel. -/
theorem auto_source_resolution (parsed : Json) :
    (∀ v, pySubscript parsed 2 = .ok v → isAutoStr v = false →
      resolveAutoSrc parsed (.str "auto") = v) ∧
    (pySubscript parsed 2 = .error () → pyPath parsed [0, 2] = .error () →
      resolveAutoSrc parsed (.str "auto") = .str "auto") ∧
    (pySubscript parsed 2 = .error () → ∀ w, pyPath parsed [0, 2] = .ok w →
      resolveAutoSrc parsed (.str "auto") = w) := by
  have hauto : isAutoStr (Json.str "auto") = true := rfl
  refine ⟨?_, ?_, ?_⟩
  · intro v h hv
    simp only [resolveAutoSrc, hauto, if_true, h]
    simp [hv]
  · intro h2 h02
    simp only [resolveAutoSrc, hauto, if_true, h2, h02]
  · intro h2 w h02
    simp only [resolveAutoSrc, hauto, if_true, h2, h02]

/-- Witness for C5 (amended) at the concrete payload. -/
theorem auto_source_resolution_w :
    resolveAutoSrc parsedNullSrc (.str "auto") = Json.null :=
  (auto_source_resolution parsedNullSrc).1 Json.null rfl rfl

/-- Mapping a function that fixes every element of a list. -/
theorem list_map_self {α : Type} (f : α → α) :
    ∀ (l : List α), (∀ x ∈ l, f x = x) → l.map f = l := by
  intro l
  induction l with
  | nil => intro _; rfl
  | cons x xs ih =>
    intro h
    rw [List.map_cons, h x (List.mem_cons_self x xs),
      ih (fun y hy => h y (List.mem_cons_of_mem _ hy))]

/-- `takeWhile` keeps an all-true prefix and stops at the first failure. -/
theorem list_takeWhile_append_stop {α : Type} (p : α → Bool) (b : α) :
    ∀ (l r : List α), (∀ x ∈ l, p x = true) → p b = false →
      (l ++ b :: r).takeWhile p = l := by
  intro l
  induction l with
  | nil =>
    intro r _ hb
    show (b :: r).takeWhile p = []
    simp [List.takeWhile_cons, hb]
  | cons x xs ih =>
    intro r h hb
    rw [List.cons_append, List.takeWhile_cons,
      h x (List.mem_cons_self x xs)]
    rw [ih r (fun y hy => h y (List.mem_cons_of_mem _ hy)) hb]
    simp

/-- Normalizing the upper-cased form of an underscore-free tag whose
characters upper/lower-case trivially gives back the tag. -/
theorem normTag_upper (L : String)
    (h : ∀ ch ∈ L.data, Char.toLower (Char.toUpper ch) = ch ∧ ch ≠ '_') :
    normTag (pyUpper L) = L := by
  unfold normTag pyLower pyUpper
  show String.mk (((String.mk (L.data.map Char.toUpper)).data.map Char.toLower).takeWhile _) = L
  have hmap : (L.data.map Char.toUpper).map Char.toLower = L.data := by
    rw [List.map_map]
    exact list_map_self _ L.data (fun x hx => (h x hx).1)
  have htw : L.data.takeWhile (fun ch => ch ≠ '_') = L.data :=
    List.takeWhile_eq_self_iff.mpr (fun x hx => by
      simpa using (h x hx).2)
  show String.mk (((L.data.map Char.toUpper).map Char.toLower).takeWhile _) = L
  rw [hmap, htw, string_mk_data]

/-- Normalizing a lowercase underscore-free tag with a `_suffix` appended
gives back the tag. -/
theorem normTag_suffix (L : String) (sfx : String)
    (h : ∀ ch ∈ L.data, Char.toLower ch = ch ∧ ch ≠ '_')
    (hsfx : ∃ rest, sfx.data = '_' :: rest ∧ sfx.data.map Char.toLower = sfx.data) :
    normTag (L ++ sfx) = L := by
  obtain ⟨rest, hr, hlow⟩ := hsfx
  unfold normTag pyLower
  show String.mk (((L ++ sfx).data.map Char.toLower).takeWhile _) = L
  rw [String.data_append, List.map_append,
    list_map_self _ L.data (fun x hx => (h x hx).1), hlow, hr]
  rw [list_takeWhile_append_stop _ '_' L.data rest
    (fun x hx => by simpa using (h x hx).2) (by decide)]

/-- Unrecognized tags (missing from all three tables, with `auto` not
applicable) fail with the normalized tag and the source flag. -/
theorem resolveLang_err (tb : LangTables) (tag : String) (allowAuto isSource : Bool)
    (hc : tb.languages.contains (normTag tag) = false)
    (hsc : tb.specialCases.lookup (normTag tag) = none)
    (hlc : tb.langcodes.lookup (normTag tag) = none)
    (hna : allowAuto = false ∨ normTag tag ≠ "auto") :
    resolveLang tb allowAuto isSource tag = .error (.invalidLanguage (normTag tag) isSource) := by
  have hcond : ((allowAuto && (normTag tag == "auto")) || tb.languages.contains (normTag tag)) = false := by
    rw [hc, Bool.or_false]
    cases hna with
    | inl h => rw [h, Bool.false_and]
    | inr h =>
      have : (normTag tag == "auto") = false := by simp [h]
      rw [this, Bool.and_false]
  simp only [resolveLang, hcond, hsc, hlc]
  simp

/-- C6: for every recognized code `L` (of trivially-casing characters
without underscore), resolving `L.upper()` and `L + "_anything"` both
yield `L`; and a tag found in none of the recognized-code, special-case
and name tables -- consulted in that order by the source -- fails with an
`InvalidLanguage` error carrying the (normalized) offending tag and
whether it was the source or the destination. -/
theorem language_resolver_contract :
    (∀ (tb : LangTables) (L : String), tb.languages.contains L = true →
      (∀ ch ∈ L.data, Char.toLower (Char.toUpper ch) = ch ∧ Char.toLower ch = ch ∧ ch ≠ '_') →
      ∀ (allowAuto isSource : Bool),
        resolveLang tb allowAuto isSource (pyUpper L) = .ok L ∧
        resolveLang tb allowAuto isSource (L ++ "_anything") = .ok L) ∧
    (∀ (tb : LangTables) (tag : String) (allowAuto isSource : Bool),
      tb.languages.contains (normTag tag) = false →
      tb.specialCases.lookup (normTag tag) = none →
      tb.langcodes.lookup (normTag tag) = none →
      (allowAuto = false ∨ normTag tag ≠ "auto") →
      resolveLang tb allowAuto isSource tag =
        .error (.invalidLanguage (normTag tag) isSource)) := by
  constructor
  · intro tb L hL h allowAuto isSource
    have hup : normTag (pyUpper L) = L :=
      normTag_upper L (fun ch hch => ⟨(h ch hch).1, (h ch hch).2.2⟩)
    have hsf : normTag (L ++ "_anything") = L :=
      normTag_suffix L "_anything" (fun ch hch => ⟨(h ch hch).2.1, (h ch hch).2.2⟩)
        ⟨"anything".data, by decide⟩
    constructor
    · simp only [resolveLang, hup, hL, Bool.or_true]
      simp
    · simp only [resolveLang, hsf, hL, Bool.or_true]
      simp
  · exact fun tb tag allowAuto isSource hc hsc hlc hna =>
      resolveLang_err tb tag allowAuto isSource hc hsc hlc hna

/-- Witness for C6 on the concrete tables. -/
theorem language_resolver_contract_w :
    resolveLang tbCE true true (pyUpper "fr") = .ok "fr" ∧
    resolveLang tbCE false false ("fr" ++ "_anything") = .ok "fr" ∧
    resolveLang tbCE false false "zz" = .error (.invalidLanguage (normTag "zz") false) :=
  ⟨(language_resolver_contract.1 tbCE "fr" (by decide) (by decide) true true).1,
   (language_resolver_contract.1 tbCE "fr" (by decide) (by decide) false false).2,
   language_resolver_contract.2 tbCE "zz" false false rfl rfl rfl (Or.inl rfl)⟩

/-- C7: for an invalid destination tag (found in no table), `translate`
fails with `InvalidLanguage` before any network call: the transport
oracle is invoked zero times. -/
theorem invalid_dest_no_network (tb : LangTables) (cfg : ClientConfig) (host : String)
    (post : String → String → Nat × String) (text dest0 src0 src' : String)
    (hsrc : resolveLang tb true true src0 = .ok src')
    (hc : tb.languages.contains (normTag dest0) = false)
    (hsc : tb.specialCases.lookup (normTag dest0) = none)
    (hlc : tb.langcodes.lookup (normTag dest0) = none) :
    translateModel tb cfg host post text dest0 src0 =
      (.error (.invalidLanguage (normTag dest0) false), 0) := by
  have hdest := resolveLang_err tb dest0 false false hc hsc hlc (Or.inl rfl)
  simp only [translateModel, hsrc, hdest]

/-- Witness for C7: destination tag `zz` with the concrete tables. -/
theorem invalid_dest_no_network_w :
    translateModel tbCE cfgCE "h" postEmpty "hi" "zz" "en" =
      (.error (.invalidLanguage (normTag "zz") false), 0) :=
  invalid_dest_no_network tbCE cfgCE "h" postEmpty "hi" "zz" "en" "en" rfl rfl rfl rfl

/-- C9 (counterexample): with two configured hosts, the failure produced
for a non-200 status is the same value whichever host was attempted -- and
it names the whole configured service-URL list -- so the error does not
carry which host was attempted. -/
theorem status_error_ignores_attempted_host :
    translateModel tbCE cfgCE "a.example" post404 "hi" "en" "en" =
      translateModel tbCE cfgCE "b.example" post404 "hi" "en" "en" ∧
    "a.example" ≠ "b.example" ∧
    translateModel tbCE cfgCE "a.example" post404 "hi" "en" "en" =
      (.error (.unexpectedStatus 404 ["a.example", "b.example"]), 1) :=
  ⟨rfl, by decide, rfl⟩

/-- C9 (amended): when the response status is not 200 and the raise toggle
is enabled (the modelled default is to raise), the call fails fast with an
`UnexpectedStatus` error carrying the status code and the configured
service-URL list (the attempted host is not singled out). -/
theorem non_200_raises (tb : LangTables) (cfg : ClientConfig) (host : String)
    (post : String → String → Nat × String) (text dest0 src0 src' dest' : String)
    (status : Nat) (body : String)
    (hsrc : resolveLang tb true true src0 = .ok src')
    (hdest : resolveLang tb false false dest0 = .ok dest')
    (hraise : cfg.raiseException = true)
    (hpost : post (rpcUrl host) (buildRpcRequest text dest' src') = (status, body))
    (hstatus : status ≠ 200) :
    defaultRaiseException = true ∧
    translateModel tb cfg host post text dest0 src0 =
      (.error (.unexpectedStatus status cfg.serviceUrls), 1) := by
  refine ⟨rfl, ?_⟩
  simp only [translateModel, hsrc, hdest, hpost]
  rw [if_pos ⟨hstatus, hraise⟩]

/-- Witness for C9 (amended) at a concrete 404 response. -/
theorem non_200_raises_w :
    defaultRaiseException = true ∧
    translateModel tbCE cfgCE "h" post404 "hi" "en" "en" =
      (.error (.unexpectedStatus 404 cfgCE.serviceUrls), 1) :=
  non_200_raises tbCE cfgCE "h" post404 "hi" "en" "en" "en" "en" 404 ""
    rfl rfl rfl rfl (by decide)

/-- C3 (counterexample): a response body on which the framer reaches end
of input with `open ≠ close` (the naive escape look-behind gets stuck
"inside" the string `"x\\"`), yet the accumulated text is valid JSON of
the expected shape and the call succeeds -- it neither raises a framing
error nor any other. -/
theorem unbalanced_eof_can_succeed :
    (frame bodyCE).opens ≠ (frame bodyCE).closes ∧
    (frame bodyCE).broke = false ∧
    (frame bodyCE).found = true ∧
    translateModel tbCE cfgCE "h" postOkCE "t" "en" "en" =
      (.ok ⟨.str "en", "en", "t", "hi", .null, [⟨.str "hi", .arr []⟩], .null⟩, 1) :=
  ⟨by decide, by decide, by decide, rfl⟩

/-- C3 (amended): a response body in which the quoted RPC marker never
appears within the first 30 characters of any line leaves the accumulator
empty, and the call fails when `json.loads` rejects the empty string (a
JSON parse error; the code defines no dedicated framing error); reaching
end of input with `open ≠ close` raises nothing by itself. -/
theorem missing_marker_fails (tb : LangTables) (cfg : ClientConfig) (host : String)
    (post : String → String → Nat × String) (text dest0 src0 src' dest' : String)
    (body : String)
    (hsrc : resolveLang tb true true src0 = .ok src')
    (hdest : resolveLang tb false false dest0 = .ok dest')
    (hpost : post (rpcUrl host) (buildRpcRequest text dest' src') = (200, body))
    (hmk : ∀ l ∈ splitLines body, markerIn l = false) :
    translateModel tb cfg host post text dest0 src0 = (.error .jsonError, 1) := by
  have hframe : frame body = ⟨"", 0, 0, false, false⟩ := by
    unfold frame frameLines
    exact frameLoop_no_marker (splitLines body) 0 0 "" hmk
  simp only [translateModel, hsrc, hdest, hpost]
  rw [if_neg (fun hcontra => hcontra.1 rfl)]
  simp only [hframe]
  rfl

/-- Witness for C3 (amended) on an empty response body. -/
theorem missing_marker_fails_w :
    translateModel tbCE cfgCE "h" postEmpty "hi" "en" "en" = (.error .jsonError, 1) :=
  missing_marker_fails tbCE cfgCE "h" postEmpty "hi" "en" "en" "en" "en" ""
    rfl rfl rfl (by decide)
